import Mathlib

/-!
Shallow embedding of `crypto/signature/eddsa/bn256/eddsa.go`.

The repository file implements EdDSA over a twisted Edwards curve whose
points and scalars live in the `fr` field of BN256.  The curve arithmetic
(`github.com/consensys/gurvy/bn256/twistededwards`), the field arithmetic
(`github.com/consensys/gurvy/bn256/fr`), the seed-expansion hash
(`golang.org/x/crypto/blake2b`) and the streaming hash (`hash.Hash`) are
external collaborators, specified only by the interface they expose.  We
therefore embed them as operation records (`FrOps`, `CurveOps`, `HashOps`)
and a function parameter for `blake2b.Sum512`, and state their documented
contracts as hypotheses of the theorems.  Everything written in the
repository file itself (key derivation, clamping, the byte-reversal loop,
nonce derivation, the signing equation, the verification equation and all
error branches) is transcribed definition by definition below.

Bytes are modelled as `Nat` (values < 256 wherever the code produces them),
byte arrays as `List Nat`, and `big.Int` values as `Nat` (all big integers
in this file are non-negative).  `big.Int.SetBytes` is big-endian, embedded
as `beNat`.
-/

/-- Record of the operations of `gurvy/bn256/fr.Element` used by the Go file.
`setBigInt` is `Element.SetBigInt` (reduce mod the field modulus and move to
Montgomery form), `fromMont` is `Element.FromMont`, `toBigInt` reads the raw
limbs as an integer, `toBigIntRegular` converts out of Montgomery form,
`bytes` is `Element.Bytes()` (the canonical encoding absorbed by the hash),
`beq` is `Element.Equal`, `binaryWrite` is the byte string produced by
`binary.Write(buf, binary.BigEndian, e)` (`none` models a write error), and
`zero` is the Go zero value of the type. -/
structure FrOps (F : Type) where
  zero : F
  setBigInt : Nat → F
  fromMont : F → F
  toBigInt : F → Nat
  toBigIntRegular : F → Nat
  bytes : F → List Nat
  beq : F → F → Bool
  binaryWrite : F → Option (List Nat)

/-- Mirror of `twistededwards.Point`: a pair of `fr` coordinates. -/
structure Point (F : Type) where
  x : F
  y : F
deriving DecidableEq

/-- Record of the operations of `gurvy/bn256/twistededwards` used by the Go
file: `ScalarMul` (with a `big.Int` scalar), `Add`, and `IsOnCurve`. -/
structure CurveOps (F : Type) where
  scalarMul : Point F → Nat → Point F
  add : Point F → Point F → Point F
  isOnCurve : Point F → Bool

/-- Mirror of the fields of `twistededwards.CurveParams` used by the Go file:
the base point, the group order (a `big.Int`), and the cofactor (stored as an
`fr.Element` and read back with `ToBigInt`). -/
structure CurveParams (F : Type) where
  base : Point F
  order : Nat
  cofactor : F

/-- Record of the `hash.Hash` interface operations used by the Go file:
`Reset`, `Write` (which may fail; `none` models a returned error) and
`Sum([]byte{})`. -/
structure HashOps (H : Type) where
  reset : H → H
  write : H → List Nat → Option H
  sum : H → List Nat

/-- Mirror of `Signature`: `R` a curve point, `S` an `fr.Element`. -/
structure Signature (F : Type) where
  R : Point F
  S : F
deriving DecidableEq

/-- Mirror of `PublicKey`: the point `A` and the embedded hash state. -/
structure PublicKey (F H : Type) where
  A : Point F
  hFunc : H

/-- Mirror of `PrivateKey`: the 32-byte randomizer and the secret scalar. -/
structure PrivateKey (F : Type) where
  randSrc : List Nat
  scalar : F

/-- Error outcomes of `Sign`/`Verify`.  `notOnCurve` is `errNotOnCurve`;
`hashWrite` stands for an error returned by `hash.Hash.Write`; `binWrite`
stands for an error returned by `binary.Write`; `indexOOB` models the Go
runtime panic on an out-of-bounds slice index. -/
inductive GoErr
  | notOnCurve
  | hashWrite
  | binWrite
  | indexOOB
deriving DecidableEq

/-- Big-endian interpretation of a byte string as an integer: the embedding
of `big.Int.SetBytes`. -/
def beNat (bs : List Nat) : Nat := bs.foldl (fun acc b => acc * 256 + b) 0

/-- Simultaneous swap `l[i], l[j] = l[j], l[i]` on a list. -/
def swapIdx (l : List Nat) (i j : Nat) : List Nat :=
  (l.set i (l.getD j 0)).set j (l.getD i 0)

/-- Fuel-indexed embedding of the loop
`for i, j := 0, 32; i < j; i, j = i+1, j-1 { h[i], h[j] = h[j], h[i] }`.
The loop performs at most 16 iterations, so any fuel of at least 17 computes
its exact result. -/
def revLoopAux : Nat → List Nat → Nat → Nat → List Nat
  | 0, l, _, _ => l
  | fuel + 1, l, i, j => if i < j then revLoopAux fuel (swapIdx l i j) (i + 1) (j - 1) else l

/-- The byte-reversal loop of `New`, started (as in the source) at
`i, j := 0, 32` on the 64-byte digest. -/
def reverseFirstBytes (l : List Nat) : List Nat := revLoopAux 64 l 0 32

/-- The clamping statements of `New`:
`h[0] &= 0xF8; h[31] &= 0x7F; h[31] |= 0x40`, applied to the 64-byte digest. -/
def clampDigest (h : List Nat) : List Nat :=
  let h0 := h.set 0 (Nat.land (h.getD 0 0) 0xF8)
  h0.set 31 (Nat.lor (Nat.land (h0.getD 31 0) 0x7F) 0x40)

/-- The integer `tmp` computed by `New`: clamp the digest, run the reversal
loop, and parse the first 32 bytes big-endian (`tmp.SetBytes(h[:32])`). -/
def derivedScalarInt (b2b : List Nat → List Nat) (seed : List Nat) : Nat :=
  beNat ((reverseFirstBytes (clampDigest (b2b seed))).take 32)

/-- Embedding of `New`.  `b2b` is `blake2b.Sum512` (a pure 64-byte digest
function), `hFunc` is the injected `hash.Hash` state stored in the public
key.  `priv.randSrc` is copied from the second half of the digest before
clamping and reversal; the secret scalar is
`priv.scalar.SetBigInt(&tmp).FromMont()` and the public point is
`pub.A.ScalarMul(&c.Base, &tmp)`. -/
def New {F H : Type} (fr : FrOps F) (C : CurveParams F) (crv : CurveOps F)
    (b2b : List Nat → List Nat) (seed : List Nat) (hFunc : H) :
    PublicKey F H × PrivateKey F :=
  let h := b2b seed
  let randSrc := (List.range 32).map (fun i => h.getD (i + 32) 0)
  let tmp := derivedScalarInt b2b seed
  let priv : PrivateKey F := { randSrc := randSrc, scalar := fr.fromMont (fr.setBigInt tmp) }
  let pub : PublicKey F H := { A := crv.scalarMul C.base tmp, hFunc := hFunc }
  (pub, priv)

/-- Sequentially absorb a list of byte strings into the hash, propagating a
write error (the embedding of the `for i := 0; i < len(data); i++` absorb
loops of `Sign` and `Verify`). -/
def writeAll {H : Type} (HO : HashOps H) : H → List (List Nat) → Option H
  | s, [] => some s
  | s, d :: ds =>
    match HO.write s d with
    | none => none
    | some s2 => writeAll HO s2 ds

/-- The challenge computation of `Sign` (lines computing `hramInt`): reset
the hash, absorb `R.X, R.Y, A.X, A.Y, message` (each through
`fr.Element.Bytes()`), finalize with `Sum`, and parse the digest big-endian.
No reduction mod the group order is performed here. -/
def signHram {F H : Type} (fr : FrOps F) (HO : HashOps H) (st : H)
    (R A : Point F) (message : F) : Option Nat :=
  (writeAll HO (HO.reset st) ([R.x, R.y, A.x, A.y, message].map fr.bytes)).map
    (fun st2 => beNat (HO.sum st2))

/-- The challenge computation of `Verify` (lines computing `hram`):
transcribed separately from its own lines, with the same structure as the
one in `Sign`. -/
def verifyHram {F H : Type} (fr : FrOps F) (HO : HashOps H) (st : H)
    (R A : Point F) (message : F) : Option Nat :=
  (writeAll HO (HO.reset st) ([R.x, R.y, A.x, A.y, message].map fr.bytes)).map
    (fun st2 => beNat (HO.sum st2))

/-- The 64-byte buffer built by `Sign`: the 32 bytes of `priv.randSrc`
followed by the first 32 bytes written by `binary.Write` for the message. -/
def randSrc64 (randSrc bufb : List Nat) : List Nat :=
  (List.range 32).map (fun i => randSrc.getD i 0) ++ bufb.take 32

/-- The per-message nonce of `Sign`: `randScalarInt.SetBytes(randBytes[:32])`
where `randBytes = blake2b.Sum512(randSrc)`. -/
def signNonce (b2b : List Nat → List Nat) (randSrc bufb : List Nat) : Nat :=
  beNat ((b2b (randSrc64 randSrc bufb)).take 32)

/-- Embedding of `Sign`.  The error cases follow the source: a failure of
`binary.Write` returns the zero signature with that error; an out-of-range
index into the serialized message (impossible for the real 32-byte
serialization, kept here to make the partiality of the indexing explicit)
models the Go panic; an off-curve `R` returns `errNotOnCurve`; a hash write
failure is propagated. -/
def Sign {F H : Type} (fr : FrOps F) (C : CurveParams F) (crv : CurveOps F)
    (HO : HashOps H) (b2b : List Nat → List Nat)
    (message : F) (pub : PublicKey F H) (priv : PrivateKey F) :
    Signature F × Option GoErr :=
  let res0 : Signature F := { R := { x := fr.zero, y := fr.zero }, S := fr.zero }
  match fr.binaryWrite message with
  | none => (res0, some GoErr.binWrite)
  | some bufb =>
    if bufb.length < 32 then (res0, some GoErr.indexOOB)
    else
      let randScalarInt := signNonce b2b priv.randSrc bufb
      let R := crv.scalarMul C.base randScalarInt
      if !(crv.isOnCurve R) then (res0, some GoErr.notOnCurve)
      else
        match signHram fr HO pub.hFunc R pub.A message with
        | none => (res0, some GoErr.hashWrite)
        | some hramInt =>
          let sInt := fr.toBigInt priv.scalar
          let s := (hramInt * sInt + randScalarInt) % C.order
          ({ R := R, S := fr.setBigInt s }, none)

/-- The left-hand side computed by `Verify`:
`lhs.ScalarMul(&curveParams.Base, &SFromMont).ScalarMul(&lhs, &bCofactor)`
with `SFromMont = sig.S.ToBigIntRegular` and
`bCofactor = curveParams.Cofactor.ToBigInt`. -/
def verifyLhs {F : Type} (fr : FrOps F) (crv : CurveOps F) (C : CurveParams F)
    (S : F) : Point F :=
  crv.scalarMul (crv.scalarMul C.base (fr.toBigIntRegular S)) (fr.toBigInt C.cofactor)

/-- The right-hand side computed by `Verify`:
`rhs.ScalarMul(&pub.A, &hram).Add(&rhs, &sig.R).ScalarMul(&rhs, &bCofactor)`. -/
def verifyRhs {F : Type} (fr : FrOps F) (crv : CurveOps F) (C : CurveParams F)
    (A R : Point F) (hram : Nat) : Point F :=
  crv.scalarMul (crv.add (crv.scalarMul A hram) R) (fr.toBigInt C.cofactor)

/-- Embedding of `Verify`.  The source checks, in order: `pub.A` on curve,
hash absorb errors, `lhs` on curve, `rhs` on curve, and finally compares the
coordinates with `fr.Element.Equal`; a mismatch returns `(false, nil)`. -/
def Verify {F H : Type} (fr : FrOps F) (C : CurveParams F) (crv : CurveOps F)
    (HO : HashOps H) (sig : Signature F) (message : F) (pub : PublicKey F H) :
    Bool × Option GoErr :=
  if !(crv.isOnCurve pub.A) then (false, some GoErr.notOnCurve)
  else
    match verifyHram fr HO pub.hFunc sig.R pub.A message with
    | none => (false, some GoErr.hashWrite)
    | some hram =>
      let lhs := verifyLhs fr crv C sig.S
      if !(crv.isOnCurve lhs) then (false, some GoErr.notOnCurve)
      else
        let rhs := verifyRhs fr crv C pub.A sig.R hram
        if !(crv.isOnCurve rhs) then (false, some GoErr.notOnCurve)
        else if !(fr.beq lhs.x rhs.x) || !(fr.beq lhs.y rhs.y) then (false, none)
        else (true, none)

/-- Concrete stand-in for the `fr` provider, used in witnesses and
counterexamples: field modulus 11 with the degenerate Montgomery constant 1
(so `fromMont` is the identity), single-byte canonical encoding, and a
32-byte big-endian-style serialization for `binary.Write`. -/
def toyFr : FrOps Nat where
  zero := 0
  setBigInt := fun x => x % 11
  fromMont := fun x => x
  toBigInt := fun x => x
  toBigIntRegular := fun x => x
  bytes := fun x => [x % 256]
  beq := fun a b => a == b
  binaryWrite := fun m => some (List.replicate 31 0 ++ [m % 256])

/-- Concrete stand-in for the curve provider: the subgroup generated by the
base point is cyclic of order 5, a point `k·Base` being represented as
`(k mod 5, 0)`; every point with `y = 0` and `x < 5` is on the curve, so the
group operations are closed on curve points. -/
def toyCurve : CurveOps Nat where
  scalarMul := fun P k => { x := P.x * k % 5, y := 0 }
  add := fun P Q => { x := (P.x + Q.x) % 5, y := 0 }
  isOnCurve := fun P => P.y == 0 && decide (P.x < 5)

/-- Parameters going with `toyCurve`: base point `(1, 0)`, group order 5,
cofactor 2. -/
def toyParams : CurveParams Nat where
  base := { x := 1, y := 0 }
  order := 5
  cofactor := 2

/-- Concrete stand-in for the `hash.Hash` provider: the state is the list of
absorbed bytes, `Reset` empties it, `Write` never fails, `Sum` returns the
absorbed bytes. -/
def toyHash : HashOps (List Nat) where
  reset := fun _ => []
  write := fun s d => some (s ++ d)
  sum := fun s => s

/-- Concrete stand-in for `blake2b.Sum512` returning the all-zero digest. -/
def zeroB2b : List Nat → List Nat := fun _ => List.replicate 64 0

/-- Concrete stand-in for `blake2b.Sum512` whose digest has byte `i` equal
to `i`. -/
def rangeB2b : List Nat → List Nat := fun _ => List.range 64

/-- Concrete digest function differing from `rangeB2b` only at byte index 32,
the first byte outside `digest[0:32]`. -/
def rangeB2bSet32 : List Nat → List Nat := fun _ => (List.range 64).set 32 200

/-- If the hash write operation never fails, absorbing any list of byte
strings succeeds. -/
theorem writeAll_total {H : Type} (HO : HashOps H)
    (hwr : ∀ s d, (HO.write s d).isSome = true) :
    ∀ (ds : List (List Nat)) (s : H), ∃ st, writeAll HO s ds = some st := by
  intro ds
  induction ds with
  | nil => intro s; exact ⟨s, rfl⟩
  | cons d ds ih =>
    intro s
    have hs := hwr s d
    cases hw : HO.write s d with
    | none => rw [hw] at hs; simp at hs
    | some s2 =>
      obtain ⟨st, hst⟩ := ih s2
      exact ⟨st, by unfold writeAll; rw [hw]; exact hst⟩

/-- Characterization of `Sign` on its success path: when the serialization
succeeds with at least 32 bytes, the derived `R` is on the curve and the
hash absorbs succeed, `Sign` returns `R = nonce·Base` and
`S = SetBigInt((challenge·scalar + nonce) mod Order)` with no error. -/
theorem Sign_spec {F H : Type} (fr : FrOps F) (C : CurveParams F) (crv : CurveOps F)
    (HO : HashOps H) (b2b : List Nat → List Nat) (message : F)
    (pub : PublicKey F H) (priv : PrivateKey F) (bufb : List Nat) (hram : Nat)
    (hbw : fr.binaryWrite message = some bufb) (hlen : 32 ≤ bufb.length)
    (hR : crv.isOnCurve (crv.scalarMul C.base (signNonce b2b priv.randSrc bufb)) = true)
    (hch : signHram fr HO pub.hFunc (crv.scalarMul C.base (signNonce b2b priv.randSrc bufb))
        pub.A message = some hram) :
    Sign fr C crv HO b2b message pub priv =
      ({ R := crv.scalarMul C.base (signNonce b2b priv.randSrc bufb),
         S := fr.setBigInt ((hram * fr.toBigInt priv.scalar
                + signNonce b2b priv.randSrc bufb) % C.order) }, none) := by
  have h32 : ¬ (bufb.length < 32) := by omega
  unfold Sign
  rw [hbw]
  simp only [h32, if_false, hR, Bool.not_true, hch, Bool.false_eq_true]

/-- Characterization of `Verify` when all on-curve checks pass and the hash
absorbs succeed: the result is the coordinate comparison of `verifyLhs` and
`verifyRhs`, with no error. -/
theorem Verify_eq {F H : Type} (fr : FrOps F) (C : CurveParams F) (crv : CurveOps F)
    (HO : HashOps H) (sig : Signature F) (message : F) (pub : PublicKey F H) (hram : Nat)
    (hA : crv.isOnCurve pub.A = true)
    (hch : verifyHram fr HO pub.hFunc sig.R pub.A message = some hram)
    (hlhs : crv.isOnCurve (verifyLhs fr crv C sig.S) = true)
    (hrhs : crv.isOnCurve (verifyRhs fr crv C pub.A sig.R hram) = true) :
    Verify fr C crv HO sig message pub =
      ((fr.beq (verifyLhs fr crv C sig.S).x (verifyRhs fr crv C pub.A sig.R hram).x &&
        fr.beq (verifyLhs fr crv C sig.S).y (verifyRhs fr crv C pub.A sig.R hram).y), none) := by
  unfold Verify
  rw [hch]
  simp only [hA, hlhs, hrhs, Bool.not_true, if_false]
  cases hx : fr.beq (verifyLhs fr crv C sig.S).x (verifyRhs fr crv C pub.A sig.R hram).x <;>
    cases hy : fr.beq (verifyLhs fr crv C sig.S).y (verifyRhs fr crv C pub.A sig.R hram).y <;>
    simp

/-- C4: the clamping invariant fails on the code.  With the digest whose
byte `i` is `i` (so `digest[1] = 1`), the scalar integer derived by `New`
is odd and smaller than `2^254`, because the reversal loop starts at
`j = 32` and therefore parses the bytes `digest[32], digest[31], ...,
digest[1]`: the scalar's least significant byte is the unclamped
`digest[1]` and its most significant byte is `digest[32]`, which belongs to
the nonce half of the digest. -/
theorem c4_clamping_invariant_fails :
    ¬ (derivedScalarInt rangeB2b (List.replicate 32 0) % 8 = 0 ∧
       2 ^ 254 ≤ derivedScalarInt rangeB2b (List.replicate 32 0) ∧
       derivedScalarInt rangeB2b (List.replicate 32 0) < 2 ^ 255) := by decide

/-- C5: the scalar integer derived by `New` is not the big-endian parse of
the byte-reversed clamped buffer `digest[0:32]`, and a byte outside
`digest[0:32]` (namely `digest[32]`) does contribute to it: two digests
agreeing on `digest[0:32]` and differing only at index 32 yield different
scalars. -/
theorem c5_reversal_mismatch :
    derivedScalarInt rangeB2b (List.replicate 32 0)
        ≠ beNat (((clampDigest (rangeB2b (List.replicate 32 0))).take 32).reverse) ∧
    derivedScalarInt rangeB2b (List.replicate 32 0)
        ≠ derivedScalarInt rangeB2bSet32 (List.replicate 32 0) := by decide

/-- C7: an off-curve `R` does not make `Verify` fail with the curve error.
With the contract-conforming concrete providers, the public key `(1,0)` is
on the curve, the signature's `R = (7,3)` is not, and `Verify` returns the
plain `(false, nil)` of a coordinate mismatch: the code never applies the
on-curve predicate to `sig.R` (it only tests `pub.A`, `lhs` and `rhs`). -/
theorem c7_offcurve_R_not_rejected :
    toyCurve.isOnCurve { x := 7, y := 3 } = false ∧
    Verify toyFr toyParams toyCurve toyHash
        { R := { x := 7, y := 3 }, S := 1 } 2
        { A := { x := 1, y := 0 }, hFunc := ([] : List Nat) }
      = (false, none) := by decide

/-- C8: an off-curve public key makes `Verify` return the curve-validity
error immediately, for every signature, message, hash provider and hash
state — in particular before any challenge computation or curve
arithmetic. -/
theorem c8_offcurve_A_rejected {F H : Type} (fr : FrOps F) (C : CurveParams F)
    (crv : CurveOps F) (HO : HashOps H) (sig : Signature F) (message : F)
    (pub : PublicKey F H) (hA : crv.isOnCurve pub.A = false) :
    Verify fr C crv HO sig message pub = (false, some GoErr.notOnCurve) := by
  unfold Verify
  simp [hA]

/-- Witness for C8 at the concrete providers with the off-curve key `(9,4)`. -/
theorem c8_offcurve_A_rejected_witness :
    Verify toyFr toyParams toyCurve toyHash
        { R := { x := 0, y := 0 }, S := 0 } 0
        { A := { x := 9, y := 4 }, hFunc := ([] : List Nat) }
      = (false, some GoErr.notOnCurve) :=
  c8_offcurve_A_rejected toyFr toyParams toyCurve toyHash _ _ _ (by decide)

/-- C6: the challenge computations of `Sign` and `Verify` agree: for the
same `R`, `A`, message and hash behavior (`Reset` restoring the initial
state regardless of the current one, as the `hash.Hash` contract requires),
both produce the same integer, whatever states the two hash handles are in. -/
theorem c6_challenge_shared {F H : Type} (fr : FrOps F) (HO : HashOps H)
    (s1 s2 : H) (R A : Point F) (message : F)
    (hreset : ∀ s s' : H, HO.reset s = HO.reset s') :
    signHram fr HO s1 R A message = verifyHram fr HO s2 R A message := by
  unfold signHram verifyHram
  rw [hreset s1 s2]

/-- Witness for C6 at the concrete hash provider, with two different
starting states. -/
theorem c6_challenge_shared_witness :
    signHram toyFr toyHash [1, 2] { x := 2, y := 0 } { x := 1, y := 0 } 3
      = verifyHram toyFr toyHash [9] { x := 2, y := 0 } { x := 1, y := 0 } 3 :=
  c6_challenge_shared toyFr toyHash [1, 2] [9] _ _ _ (fun _ _ => rfl)

/-- C2: when `pub.A`, `lhs` and `rhs` pass the on-curve tests and the hash
absorbs succeed, `Verify` returns exactly the coordinate-wise comparison of
`lhs = cofactor·(S·Base)` and `rhs = cofactor·(R + challenge·A)` with a
`nil` error: acceptance holds precisely when both coordinates agree, and a
mismatch yields the plain `(false, nil)`. -/
theorem c2_verify_equation {F H : Type} (fr : FrOps F) (C : CurveParams F)
    (crv : CurveOps F) (HO : HashOps H) (sig : Signature F) (message : F)
    (pub : PublicKey F H) (hram : Nat)
    (hA : crv.isOnCurve pub.A = true)
    (hch : verifyHram fr HO pub.hFunc sig.R pub.A message = some hram)
    (hlhs : crv.isOnCurve (verifyLhs fr crv C sig.S) = true)
    (hrhs : crv.isOnCurve (verifyRhs fr crv C pub.A sig.R hram) = true) :
    Verify fr C crv HO sig message pub =
      ((fr.beq (verifyLhs fr crv C sig.S).x (verifyRhs fr crv C pub.A sig.R hram).x &&
        fr.beq (verifyLhs fr crv C sig.S).y (verifyRhs fr crv C pub.A sig.R hram).y), none) :=
  Verify_eq fr C crv HO sig message pub hram hA hch hlhs hrhs

/-- Witness for C2 at the concrete providers: the challenge evaluates to
8590000130, the two sides are `(2,0)` and `(4,0)`, and `Verify` returns the
comparison `(false, nil)`. -/
theorem c2_verify_equation_witness :
    Verify toyFr toyParams toyCurve toyHash
        { R := { x := 2, y := 0 }, S := 1 } 2
        { A := { x := 1, y := 0 }, hFunc := ([] : List Nat) } =
      ((toyFr.beq (verifyLhs toyFr toyCurve toyParams 1).x
          (verifyRhs toyFr toyCurve toyParams { x := 1, y := 0 } { x := 2, y := 0 } 8590000130).x &&
        toyFr.beq (verifyLhs toyFr toyCurve toyParams 1).y
          (verifyRhs toyFr toyCurve toyParams { x := 1, y := 0 } { x := 2, y := 0 } 8590000130).y), none) :=
  c2_verify_equation toyFr toyParams toyCurve toyHash _ _ _ 8590000130
    (by decide) (by decide) (by decide) (by decide)

/-- C3: on the success path, the `S` component produced by `Sign` is
`SetBigInt((nonce + challenge·secretScalar) mod Order)`: the per-message
nonce plus the unreduced challenge times the secret scalar integer, reduced
mod the group order and converted back into the field representation. -/
theorem c3_sign_s_formula {F H : Type} (fr : FrOps F) (C : CurveParams F)
    (crv : CurveOps F) (HO : HashOps H) (b2b : List Nat → List Nat) (message : F)
    (pub : PublicKey F H) (priv : PrivateKey F) (bufb : List Nat) (hram : Nat)
    (hbw : fr.binaryWrite message = some bufb) (hlen : 32 ≤ bufb.length)
    (hR : crv.isOnCurve (crv.scalarMul C.base (signNonce b2b priv.randSrc bufb)) = true)
    (hch : signHram fr HO pub.hFunc (crv.scalarMul C.base (signNonce b2b priv.randSrc bufb))
        pub.A message = some hram) :
    (Sign fr C crv HO b2b message pub priv).1.S =
      fr.setBigInt ((signNonce b2b priv.randSrc bufb
          + hram * fr.toBigInt priv.scalar) % C.order) ∧
    (Sign fr C crv HO b2b message pub priv).2 = none := by
  rw [Sign_spec fr C crv HO b2b message pub priv bufb hram hbw hlen hR hch]
  exact ⟨by rw [Nat.add_comm], rfl⟩

/-- Witness for C3 at the concrete providers: the nonce is 0, the challenge
is 65539, the secret scalar is 7, and `S = (0 + 65539·7) mod 5`. -/
theorem c3_sign_s_formula_witness :
    (Sign toyFr toyParams toyCurve toyHash zeroB2b 3
        { A := { x := 1, y := 0 }, hFunc := ([] : List Nat) }
        { randSrc := List.replicate 32 1, scalar := 7 }).1.S =
      toyFr.setBigInt ((signNonce zeroB2b (List.replicate 32 1) (List.replicate 31 0 ++ [3])
          + 65539 * toyFr.toBigInt 7) % toyParams.order) ∧
    (Sign toyFr toyParams toyCurve toyHash zeroB2b 3
        { A := { x := 1, y := 0 }, hFunc := ([] : List Nat) }
        { randSrc := List.replicate 32 1, scalar := 7 }).2 = none :=
  c3_sign_s_formula toyFr toyParams toyCurve toyHash zeroB2b 3 _ _
    (List.replicate 31 0 ++ [3]) 65539 (by decide) (by decide) (by decide) (by decide)

/-- Big-endian byte encoding of `x` in `w` bytes (most significant byte
first, value taken mod `256^w`). -/
def beBytes : Nat → Nat → List Nat
  | 0, _ => []
  | w + 1, x => beBytes w (x / 256) ++ [x % 256]

/-- Modelled from the spec: the byte string written by
`binary.Write(buf, binary.BigEndian, message)` is produced by
`encoding/binary` applied to the external `gurvy/bn256/fr.Element`
representation, neither of which is part of this repository; the spec
describes it as the "canonical big-endian encoding of message (32 bytes)",
modelled here as the 32-byte big-endian encoding of the canonical
(non-Montgomery) integer value of the element. -/
def specSerialize {F : Type} (fr : FrOps F) (m : F) : List Nat :=
  beBytes 32 (fr.toBigIntRegular m)

/-- Length of the big-endian encoding. -/
theorem beBytes_length (w : Nat) : ∀ x, (beBytes w x).length = w := by
  induction w with
  | zero => intro x; rfl
  | succ w ih => intro x; simp [beBytes, ih]

/-- C9: with the message serialized by its canonical big-endian 32-byte
encoding, `Sign` builds the 64-byte buffer `nonceSeed ‖ encoding(message)`
and uses as nonce the integer read big-endian from the first 32 bytes of
the 512-bit digest of that buffer: the returned `R` is `nonce·Base` and the
returned `S` uses the same nonce. -/
theorem c9_nonce_derivation {F H : Type} (fr : FrOps F) (C : CurveParams F)
    (crv : CurveOps F) (HO : HashOps H) (b2b : List Nat → List Nat) (message : F)
    (pub : PublicKey F H) (priv : PrivateKey F) (hram : Nat)
    (hbw : fr.binaryWrite message = some (specSerialize fr message))
    (hR : crv.isOnCurve (crv.scalarMul C.base
        (beNat ((b2b (randSrc64 priv.randSrc (specSerialize fr message))).take 32))) = true)
    (hch : signHram fr HO pub.hFunc (crv.scalarMul C.base
        (beNat ((b2b (randSrc64 priv.randSrc (specSerialize fr message))).take 32)))
        pub.A message = some hram) :
    (randSrc64 priv.randSrc (specSerialize fr message)).length = 64 ∧
    Sign fr C crv HO b2b message pub priv =
      ({ R := crv.scalarMul C.base
            (beNat ((b2b (randSrc64 priv.randSrc (specSerialize fr message))).take 32)),
         S := fr.setBigInt ((hram * fr.toBigInt priv.scalar
            + beNat ((b2b (randSrc64 priv.randSrc (specSerialize fr message))).take 32))
              % C.order) }, none) := by
  have hlen : (specSerialize fr message).length = 32 := beBytes_length 32 _
  constructor
  · simp [randSrc64, hlen]
  · exact Sign_spec fr C crv HO b2b message pub priv (specSerialize fr message) hram
      hbw (by omega) hR hch

/-- Witness for C9 at the concrete providers with message 3, whose concrete
serialization coincides with the canonical big-endian 32-byte encoding. -/
theorem c9_nonce_derivation_witness :
    (randSrc64 (List.replicate 32 1) (specSerialize toyFr 3)).length = 64 ∧
    Sign toyFr toyParams toyCurve toyHash zeroB2b 3
        { A := { x := 1, y := 0 }, hFunc := ([] : List Nat) }
        { randSrc := List.replicate 32 1, scalar := 7 } =
      ({ R := toyCurve.scalarMul toyParams.base
            (beNat ((zeroB2b (randSrc64 (List.replicate 32 1) (specSerialize toyFr 3))).take 32)),
         S := toyFr.setBigInt ((65539 * toyFr.toBigInt 7
            + beNat ((zeroB2b (randSrc64 (List.replicate 32 1) (specSerialize toyFr 3))).take 32))
              % toyParams.order) }, none) :=
  c9_nonce_derivation toyFr toyParams toyCurve toyHash zeroB2b 3
    { A := { x := 1, y := 0 }, hFunc := ([] : List Nat) }
    { randSrc := List.replicate 32 1, scalar := 7 } 65539
    (by decide) (by decide) (by decide)

/-- Modelled from the spec and the Go standard library semantics used at
line 110 of the source: `fr.Element` is a `[4]uint64` array (limb 0 least
significant), and `binary.Write(buf, binary.BigEndian, message)` on a
`bytes.Buffer` serializes the four limbs in array order, each as 8
big-endian bytes, always succeeding with exactly 32 bytes. -/
def goBinaryWriteU64x4 (l0 l1 l2 l3 : Nat) : List Nat :=
  beBytes 8 l0 ++ beBytes 8 l1 ++ beBytes 8 l2 ++ beBytes 8 l3

/-- C10: the serialization of the message always produces exactly 32 bytes
(first conjunct, for the modelled `binary.Write` of a four-limb element),
and whenever `binary.Write` succeeds with a 32-byte buffer — as it always
does for a fixed-size value written to a `bytes.Buffer` — `Sign` can return
neither the `binary.Write` error nor the out-of-bounds panic: the indices
`bufb[i]`, `0 ≤ i < 32`, are in bounds and the embedding of the copy loop
is total. -/
theorem c10_binary_write_total :
    (∀ l0 l1 l2 l3, (goBinaryWriteU64x4 l0 l1 l2 l3).length = 32) ∧
    (∀ (F H : Type) (fr : FrOps F) (C : CurveParams F) (crv : CurveOps F)
        (HO : HashOps H) (b2b : List Nat → List Nat) (message : F)
        (pub : PublicKey F H) (priv : PrivateKey F) (bufb : List Nat),
      fr.binaryWrite message = some bufb → bufb.length = 32 →
      (Sign fr C crv HO b2b message pub priv).2 ≠ some GoErr.binWrite ∧
      (Sign fr C crv HO b2b message pub priv).2 ≠ some GoErr.indexOOB) := by
  constructor
  · intro l0 l1 l2 l3
    simp [goBinaryWriteU64x4, beBytes_length]
  · intro F H fr C crv HO b2b message pub priv bufb hbw hlen
    have h32 : ¬ (bufb.length < 32) := by omega
    unfold Sign
    rw [hbw]
    simp only [h32, if_false]
    cases hon : crv.isOnCurve (crv.scalarMul C.base (signNonce b2b priv.randSrc bufb)) <;>
      simp only [Bool.not_true, Bool.not_false, if_true, if_false] <;>
      [skip;
       cases hch : signHram fr HO pub.hFunc
          (crv.scalarMul C.base (signNonce b2b priv.randSrc bufb)) pub.A message] <;>
      exact ⟨by simp, by simp⟩

/-- Witness for C10: a concrete four-limb serialization has 32 bytes, and a
concrete `Sign` call whose serialization succeeds with 32 bytes avoids both
error outcomes. -/
theorem c10_binary_write_total_witness :
    (goBinaryWriteU64x4 1 2 3 4).length = 32 ∧
    ((Sign toyFr toyParams toyCurve toyHash zeroB2b 3
        { A := { x := 1, y := 0 }, hFunc := ([] : List Nat) }
        { randSrc := List.replicate 32 1, scalar := 7 }).2 ≠ some GoErr.binWrite ∧
     (Sign toyFr toyParams toyCurve toyHash zeroB2b 3
        { A := { x := 1, y := 0 }, hFunc := ([] : List Nat) }
        { randSrc := List.replicate 32 1, scalar := 7 }).2 ≠ some GoErr.indexOOB) :=
  ⟨c10_binary_write_total.1 1 2 3 4,
   c10_binary_write_total.2 Nat (List Nat) toyFr toyParams toyCurve toyHash zeroB2b 3
     { A := { x := 1, y := 0 }, hFunc := ([] : List Nat) }
     { randSrc := List.replicate 32 1, scalar := 7 }
     (List.replicate 31 0 ++ [3]) (by decide) (by decide)⟩

/-- Every scalar multiple of the concrete base point is on the concrete
curve. -/
theorem toy_scalarMul_onCurve (k : Nat) :
    toyCurve.isOnCurve (toyCurve.scalarMul toyParams.base k) = true := by
  simp [toyCurve, toyParams]
  exact Nat.mod_lt _ (by norm_num)

/-- Iterated scalar multiplication of the concrete base point multiplies
the scalars. -/
theorem toy_scalarMul_scalarMul (k j : Nat) :
    toyCurve.scalarMul (toyCurve.scalarMul toyParams.base k) j
      = toyCurve.scalarMul toyParams.base (k * j) := by
  simp [toyCurve, toyParams, Point.mk.injEq]

/-- Addition of multiples of the concrete base point adds the scalars. -/
theorem toy_add_scalarMul (k j : Nat) :
    toyCurve.add (toyCurve.scalarMul toyParams.base k) (toyCurve.scalarMul toyParams.base j)
      = toyCurve.scalarMul toyParams.base (k + j) := by
  simp [toyCurve, toyParams, Point.mk.injEq]

/-- The concrete base point has order dividing the concrete group order. -/
theorem toy_scalarMul_mod (k : Nat) :
    toyCurve.scalarMul toyParams.base (k % toyParams.order)
      = toyCurve.scalarMul toyParams.base k := by
  simp [toyCurve, toyParams, Point.mk.injEq]

/-- Core round-trip computation, stated for an arbitrary key pair of the
shape produced by `New` (public point `tmp·Base`, secret scalar
`FromMont(SetBigInt(tmp))`), under the documented contracts of the external
providers: field modulus `q` with Montgomery round-trips, a never-failing
hash write, a successful 32-byte-or-more message serialization, the
subgroup laws of the curve provider on multiples of the base point, and the
compatibility condition on `tmp` (its reduction mod `q` agrees with it mod
the group order). -/
theorem roundtrip_core {F H : Type} (fr : FrOps F) (C : CurveParams F)
    (crv : CurveOps F) (HO : HashOps H) (b2b : List Nat → List Nat)
    (q tmp : Nat) (rs : List Nat) (hFunc : H) (message : F)
    (hmont : ∀ x, fr.toBigInt (fr.fromMont (fr.setBigInt x)) = x % q)
    (hreg : ∀ x, fr.toBigIntRegular (fr.setBigInt x) = x % q)
    (hbeq : ∀ a, fr.beq a a = true)
    (hbw : ∃ bs, fr.binaryWrite message = some bs ∧ 32 ≤ bs.length)
    (hwr : ∀ s d, (HO.write s d).isSome = true)
    (hord : 0 < C.order) (hoq : C.order ≤ q)
    (hon : ∀ k, crv.isOnCurve (crv.scalarMul C.base k) = true)
    (hpow : ∀ k j, crv.scalarMul (crv.scalarMul C.base k) j = crv.scalarMul C.base (k * j))
    (hadd : ∀ k j, crv.add (crv.scalarMul C.base k) (crv.scalarMul C.base j)
        = crv.scalarMul C.base (k + j))
    (hmod : ∀ k, crv.scalarMul C.base (k % C.order) = crv.scalarMul C.base k)
    (htmp : tmp % q % C.order = tmp % C.order) :
    Verify fr C crv HO
      (Sign fr C crv HO b2b message
        { A := crv.scalarMul C.base tmp, hFunc := hFunc }
        { randSrc := rs, scalar := fr.fromMont (fr.setBigInt tmp) }).1
      message { A := crv.scalarMul C.base tmp, hFunc := hFunc } = (true, none) := by
  obtain ⟨bufb, hbw1, hlen⟩ := hbw
  obtain ⟨st, hst⟩ := writeAll_total HO hwr
    ([(crv.scalarMul C.base (signNonce b2b rs bufb)).x,
      (crv.scalarMul C.base (signNonce b2b rs bufb)).y,
      (crv.scalarMul C.base tmp).x, (crv.scalarMul C.base tmp).y, message].map fr.bytes)
    (HO.reset hFunc)
  have hch : signHram fr HO hFunc (crv.scalarMul C.base (signNonce b2b rs bufb))
      (crv.scalarMul C.base tmp) message = some (beNat (HO.sum st)) := by
    unfold signHram
    rw [hst]
    rfl
  have hsig := Sign_spec fr C crv HO b2b message
    { A := crv.scalarMul C.base tmp, hFunc := hFunc }
    { randSrc := rs, scalar := fr.fromMont (fr.setBigInt tmp) } bufb (beNat (HO.sum st))
    hbw1 hlen (hon _) hch
  rw [hsig]
  dsimp only
  rw [hmont]
  set r0 := signNonce b2b rs bufb with hr0
  set h1 := beNat (HO.sum st) with hh1
  set s := (h1 * (tmp % q) + r0) % C.order with hs
  have hvch : verifyHram fr HO hFunc (crv.scalarMul C.base r0)
      (crv.scalarMul C.base tmp) message = some h1 := hch
  have hslt : s < C.order := Nat.mod_lt _ hord
  have hsq : s % q = s := Nat.mod_eq_of_lt (lt_of_lt_of_le hslt hoq)
  have hlhsEq : verifyLhs fr crv C (fr.setBigInt s)
      = crv.scalarMul C.base (s * fr.toBigInt C.cofactor) := by
    unfold verifyLhs
    rw [hreg, hsq, hpow]
  have hrhsEq : verifyRhs fr crv C (crv.scalarMul C.base tmp)
      (crv.scalarMul C.base r0) h1
      = crv.scalarMul C.base ((h1 * tmp + r0) * fr.toBigInt C.cofactor) := by
    unfold verifyRhs
    rw [hpow, Nat.mul_comm tmp h1, hadd, hpow]
  have hkey : crv.scalarMul C.base (s * fr.toBigInt C.cofactor)
      = crv.scalarMul C.base ((h1 * tmp + r0) * fr.toBigInt C.cofactor) := by
    rw [← hmod (s * fr.toBigInt C.cofactor),
        ← hmod ((h1 * tmp + r0) * fr.toBigInt C.cofactor)]
    congr 1
    have e1 : Nat.ModEq C.order s (h1 * (tmp % q) + r0) := Nat.mod_modEq _ _
    have e2 : Nat.ModEq C.order (h1 * (tmp % q)) (h1 * tmp) :=
      Nat.ModEq.mul_left h1 htmp
    have e3 : Nat.ModEq C.order s (h1 * tmp + r0) := e1.trans (e2.add_right r0)
    exact e3.mul_right _
  rw [Verify_eq fr C crv HO _ message _ h1 (hon tmp) hvch
    (by rw [hlhsEq]; exact hon _) (by rw [hrhsEq]; exact hon _)]
  rw [hlhsEq, hrhsEq, hkey, hbeq, hbeq]
  rfl

/-- C1 counterexample: with contract-conforming concrete providers (the
same ones that satisfy every hypothesis of the amended round-trip theorem)
and a digest function whose byte `i` equals `i`, the key pair derived by
`New` fails the round trip: `Sign` succeeds, but `Verify` returns
`(false, nil)` instead of `(true, nil)`, because the scalar integer fed to
`ScalarMul` for the public key exceeds the field modulus, while the stored
secret scalar is its field reduction, and the two disagree modulo the group
order. -/
theorem c1_roundtrip_counterexample :
    Verify toyFr toyParams toyCurve toyHash
        (Sign toyFr toyParams toyCurve toyHash rangeB2b 3
          (New toyFr toyParams toyCurve rangeB2b (List.replicate 32 0) ([] : List Nat)).1
          (New toyFr toyParams toyCurve rangeB2b (List.replicate 32 0) ([] : List Nat)).2).1
        3 (New toyFr toyParams toyCurve rangeB2b (List.replicate 32 0) ([] : List Nat)).1
      ≠ (true, none) := by decide

/-- C1 (amended): for every seed, hash instance and message, the key pair
produced by `New` satisfies `Verify(Sign(m, pub, priv), m, pub) = (true,
nil)` under the documented contracts of the external providers, provided
the scalar integer derived from the seed agrees, modulo the group order,
with its reduction modulo the field modulus (`htmp`) — which holds in
particular whenever that integer is below the field modulus. -/
theorem c1_roundtrip_amended {F H : Type} (fr : FrOps F) (C : CurveParams F)
    (crv : CurveOps F) (HO : HashOps H) (b2b : List Nat → List Nat)
    (q : Nat) (seed : List Nat) (hFunc : H) (message : F)
    (hmont : ∀ x, fr.toBigInt (fr.fromMont (fr.setBigInt x)) = x % q)
    (hreg : ∀ x, fr.toBigIntRegular (fr.setBigInt x) = x % q)
    (hbeq : ∀ a, fr.beq a a = true)
    (hbw : ∃ bs, fr.binaryWrite message = some bs ∧ 32 ≤ bs.length)
    (hwr : ∀ s d, (HO.write s d).isSome = true)
    (hord : 0 < C.order) (hoq : C.order ≤ q)
    (hon : ∀ k, crv.isOnCurve (crv.scalarMul C.base k) = true)
    (hpow : ∀ k j, crv.scalarMul (crv.scalarMul C.base k) j = crv.scalarMul C.base (k * j))
    (hadd : ∀ k j, crv.add (crv.scalarMul C.base k) (crv.scalarMul C.base j)
        = crv.scalarMul C.base (k + j))
    (hmod : ∀ k, crv.scalarMul C.base (k % C.order) = crv.scalarMul C.base k)
    (htmp : derivedScalarInt b2b seed % q % C.order = derivedScalarInt b2b seed % C.order) :
    Verify fr C crv HO
      (Sign fr C crv HO b2b message
        (New fr C crv b2b seed hFunc).1 (New fr C crv b2b seed hFunc).2).1
      message (New fr C crv b2b seed hFunc).1 = (true, none) :=
  roundtrip_core fr C crv HO b2b q (derivedScalarInt b2b seed)
    ((List.range 32).map (fun i => (b2b seed).getD (i + 32) 0)) hFunc message
    hmont hreg hbeq hbw hwr hord hoq hon hpow hadd hmod htmp

/-- Witness for the amended C1 at the concrete providers with the all-zero
digest: the derived scalar integer is `64·2^240`, whose reduction mod the
concrete field modulus 11 agrees with it mod the group order 5, and the
round trip verifies. -/
theorem c1_roundtrip_amended_witness :
    Verify toyFr toyParams toyCurve toyHash
        (Sign toyFr toyParams toyCurve toyHash zeroB2b 3
          (New toyFr toyParams toyCurve zeroB2b (List.replicate 32 0) ([] : List Nat)).1
          (New toyFr toyParams toyCurve zeroB2b (List.replicate 32 0) ([] : List Nat)).2).1
        3 (New toyFr toyParams toyCurve zeroB2b (List.replicate 32 0) ([] : List Nat)).1
      = (true, none) :=
  c1_roundtrip_amended toyFr toyParams toyCurve toyHash zeroB2b 11
    (List.replicate 32 0) ([] : List Nat) 3
    (fun _ => rfl) (fun _ => rfl) (fun a => by simp [toyFr])
    ⟨List.replicate 31 0 ++ [3 % 256], rfl, by decide⟩
    (fun _ _ => rfl) (by decide) (by decide)
    toy_scalarMul_onCurve toy_scalarMul_scalarMul toy_add_scalarMul toy_scalarMul_mod
    (by decide)
